import Mathlib

/-!
Shallow embedding of the Corroboration & Grounding Engine of the
Ontology-Guided-Knowledge-Extraction repository (`src/pipeline.py`,
`src/ontology.py`), together with theorems settling the frozen claims.

Modelling conventions:
* The Neo4j property store is modelled as an explicit `Store` record holding
  the `Source` nodes (by url), the entity nodes (`Product`, `Condition`,
  `FAQ`, `Branch`, `Employee`, plus the `ProductType`/`RiskClass` lookup
  nodes) and the `FROM_SOURCE` relationships (`Edge`), plus the plain
  relationships created with `MERGE` (`HAS_CONDITION`, ...).
* Timestamps (`datetime`) only ever flow through comparisons, so they are
  embedded as `Int`; trust scores (Python floats, compared but never
  computed with) are embedded as `ℚ`.
* `dict` values coming out of `get_node_props` may be Python `None`
  (pipeline.py line 153 keeps `None`-valued scalar fields), hence node
  properties are `Option PropValue`.
* `Result.single()` of the neo4j driver returns `None` on an empty result
  and, when more than one record matches, emits a non-fatal warning and
  returns the first record; it is embedded as `List.head?`.
-/

namespace OGKE

/-- A Neo4j property value as produced by `get_node_props`: a string or an
integer (Python `str` / `int`; enum members are written as their `value`
tag string). -/
inductive PropValue where
  | str (s : String)
  | int (n : Int)
deriving DecidableEq, Repr

/-- Node property bag: field name to value, `none` standing for Python
`None` written into the dict by `get_node_props`. -/
abbrev NodeProps := List (String × Option PropValue)

/-- Relationship property bag of evidence snippets produced by
`get_rel_props` (field `x` becomes key `x_evidence`). -/
abbrev EvidenceProps := List (String × String)

/-- `ProvenanceModel` of `ontology.py`: origin url, retrieval timestamp and
trust score of one extraction. -/
structure Provenance where
  url : String
  retrieved_at : Int
  trust_score : ℚ
deriving DecidableEq, Repr

/-- The full property bag of a `FROM_SOURCE` relationship:
`_tx_corroborate_and_ingest` stores the evidence snippets plus
`retrieved_at`, `trust_score` and `is_active` (pipeline.py lines 178-179,
210, 217). -/
structure AssertionProps where
  evidence : EvidenceProps
  retrieved_at : Int
  trust_score : ℚ
  is_active : Bool
deriving DecidableEq, Repr

/-- A `FROM_SOURCE` relationship from the entity node identified by
`(label, key)` to the `Source` node identified by `source` (a url). -/
structure Edge where
  label : String
  key : String
  source : String
  props : AssertionProps
deriving DecidableEq, Repr

/-- An entity node: label, the name of its natural-key property, the key
value, and the current property snapshot. -/
structure Entity where
  label : String
  key_field : String
  key : String
  props : NodeProps
deriving DecidableEq, Repr

/-- A plain `MERGE`d relationship: type, from-node `(label, key)`,
to-node `(label, key)`. -/
abbrev RelTriple := String × (String × String) × (String × String)

/-- The modelled Neo4j store. -/
structure Store where
  sources : List String
  entities : List Entity
  edges : List Edge
  rels : List RelTriple
deriving DecidableEq, Repr

/-- Does edge `e` belong to the entity `(label, key)`? -/
def isEnt (label key : String) (e : Edge) : Bool :=
  e.label == label && e.key == key

/-- Is `e` an `is_active = true` edge of the entity `(label, key)`? -/
def isActiveEnt (label key : String) (e : Edge) : Bool :=
  isEnt label key e && e.props.is_active

/-- Is `e` the `(entity, source)` edge for this entity and source url? -/
def isOwn (label key url : String) (e : Edge) : Bool :=
  isEnt label key e && e.source == url

/-- The competitor pattern of pipeline.py lines 181-185: an active
`FROM_SOURCE` edge of the entity whose source url differs from the
incoming provenance url. -/
def isCompeting (label key url : String) (e : Edge) : Bool :=
  isEnt label key e && e.props.is_active && !(e.source == url)

/-- All competing edges, in store order (the Cypher `MATCH` result). -/
def competingEdges (s : Store) (label key url : String) : List Edge :=
  s.edges.filter (isCompeting label key url)

/-- pipeline.py lines 192-197: the candidate beats a given old edge iff
its timestamp is strictly newer, or the timestamps are equal and its
trust score is at least the old one. -/
def winsAgainst (meta : Provenance) (old : Edge) : Bool :=
  if meta.retrieved_at > old.props.retrieved_at then true
  else if meta.retrieved_at = old.props.retrieved_at then
    decide (meta.trust_score ≥ old.props.trust_score)
  else false

/-- pipeline.py lines 189-197: no competitor record means the candidate
wins automatically. -/
def decideWinner (meta : Provenance) (old : Option Edge) : Bool :=
  match old with
  | none => true
  | some e => winsAgainst meta e

/-- `MERGE (q:Source {url: $url})`. -/
def mergeSource (s : Store) (url : String) : Store :=
  if url ∈ s.sources then s else { s with sources := s.sources ++ [url] }

/-- Does an entity node `(label, key_field, key)` exist? -/
def isEntNode (label kf key : String) (n : Entity) : Bool :=
  n.label == label && n.key_field == kf && n.key == key

/-- `MERGE (n:Label {key_field: $key_value})`: match the node, or create it
carrying only its key property. -/
def mergeEntity (s : Store) (label kf key : String) : Store :=
  if s.entities.any (isEntNode label kf key) then s
  else { s with entities :=
    s.entities ++ [{ label := label, key_field := kf, key := key,
                     props := [(kf, some (PropValue.str key))] }] }

/-- The `r_alt.is_active = false` update of pipeline.py line 207, applied
to one edge: deactivate it if it is an active edge of the entity. -/
def deactOne (label key : String) (e : Edge) : Edge :=
  if isActiveEnt label key e
  then { e with props := { e.props with is_active := false } } else e

/-- `OPTIONAL MATCH (n)-[r_alt:FROM_SOURCE {is_active: true}]->() SET
r_alt.is_active = false`: every active edge of the entity, from any
source, is deactivated. -/
def deactivateEdges (l : List Edge) (label key : String) : List Edge :=
  l.map (deactOne label key)

/-- `SET n = $node_props` applied to one entity node (wholesale property
replacement; the callers always include the natural key in `node_props`,
so keeping `key` fixed is faithful). -/
def setPropsNode (label kf key : String) (props : NodeProps) (n : Entity) : Entity :=
  if isEntNode label kf key n then { n with props := props } else n

/-- `MATCH (n:Label {key_field: $key_value}) SET n = $node_props`. -/
def setEntityProps (l : List Entity) (label kf key : String) (props : NodeProps) :
    List Entity :=
  l.map (setPropsNode label kf key props)

/-- `SET r_new = $rel_props` applied to one edge if it is the
`(entity, source)` edge (wholesale property replacement). -/
def setPropsOwn (label key url : String) (p : AssertionProps) (e : Edge) : Edge :=
  if isOwn label key url e then { e with props := p } else e

/-- `MERGE (n)-[r_new:FROM_SOURCE]->(q) SET r_new = $rel_props`: match the
existing `(entity, source)` edge and overwrite its properties, or create
it. -/
def upsertEdge (l : List Edge) (label key url : String) (p : AssertionProps) :
    List Edge :=
  if l.any (isOwn label key url)
  then l.map (setPropsOwn label key url p)
  else l ++ [{ label := label, key := key, source := url, props := p }]

/-- The winner decision of one `_tx_corroborate_and_ingest` call: the
Cypher read of lines 181-186 followed by `result.single()` (`head?`) and
the decision of lines 189-197. -/
def corroborateWon (s : Store) (label key : String) (meta : Provenance) : Bool :=
  decideWinner meta (competingEdges s label key meta.url).head?

/-- `_tx_corroborate_and_ingest` (pipeline.py lines 167-221): decide the
winner, `MERGE` source and entity nodes, then either promote the new
assertion (deactivate all active edges, overwrite the entity snapshot,
upsert the own edge active) or record it inactive for audit. Returns the
decision together with the updated store. -/
def corroborate (s : Store) (label kf key : String) (np : NodeProps)
    (rp : EvidenceProps) (meta : Provenance) : Bool × Store :=
  let s1 := mergeEntity (mergeSource s meta.url) label kf key
  if corroborateWon s label key meta then
    (true, { s1 with
      entities := setEntityProps s1.entities label kf key np,
      edges := upsertEdge (deactivateEdges s1.edges label key) label key meta.url
        { evidence := rp, retrieved_at := meta.retrieved_at,
          trust_score := meta.trust_score, is_active := true } })
  else
    (false, { s1 with
      edges := upsertEdge s1.edges label key meta.url
        { evidence := rp, retrieved_at := meta.retrieved_at,
          trust_score := meta.trust_score, is_active := false } })

/-- One edge of the staleness sweep: deactivate it when its entity label
is among the swept labels, it is active, and it points at the sweeping
source. -/
def staleOne (url : String) (labels : List String) (e : Edge) : Edge :=
  if labels.contains e.label && e.props.is_active && e.source == url
  then { e with props := { e.props with is_active := false } } else e

/-- The staleness sweep of pipeline.py line 229 (and line 271):
`MATCH (n:L1|L2|...)-[r:FROM_SOURCE {is_active: true}]->(q:Source
{url: $url}) SET r.is_active = false`. -/
def markStale (s : Store) (url : String) (labels : List String) : Store :=
  { s with edges := s.edges.map (staleOne url labels) }

/-! ## Ontology models (`src/ontology.py`)

`_ground_model_recursive` nullifies `ProvableFact` fields with `setattr`
even when the Pydantic declaration marks them required (assignment
validation is off), so every `ProvableFact`-typed field is embedded as an
`Option`. -/

/-- `ProvableFact`: a claimed value plus the evidence snippet said to
support it. -/
structure ProvableFact where
  value : String
  evidence : String
deriving DecidableEq, Repr

/-- `RoleTypeEnum` of `ontology.py`. -/
inductive RoleTypeEnum where
  | advisor
  | service
deriving DecidableEq, Repr

/-- The `.value` tag string of a `RoleTypeEnum` member. -/
def RoleTypeEnum.tag : RoleTypeEnum → String
  | .advisor => "Advisor"
  | .service => "Service"

/-- `ProductTypeEnum` of `ontology.py`. -/
inductive ProductTypeEnum where
  | interestProduct
  | checkingAccount
  | security
deriving DecidableEq, Repr

/-- The `.value` tag string of a `ProductTypeEnum` member. -/
def ProductTypeEnum.tag : ProductTypeEnum → String
  | .interestProduct => "InterestProduct"
  | .checkingAccount => "CheckingAccount"
  | .security => "Security"

/-- `RiskClassStrEnum` of `ontology.py`. -/
inductive RiskClassEnum where
  | one | two | three | four | five
deriving DecidableEq, Repr

/-- The `.value` tag string of a `RiskClassStrEnum` member. -/
def RiskClassEnum.tag : RiskClassEnum → String
  | .one => "1"
  | .two => "2"
  | .three => "3"
  | .four => "4"
  | .five => "5"

/-- `ProductModel`. -/
structure ProductModel where
  name : Option ProvableFact
  description : Option ProvableFact
deriving DecidableEq, Repr

/-- `ConditionModel`. -/
structure ConditionModel where
  type : Option ProvableFact
  min_amount : Option Int
  max_amount : Option Int
  term_years : Option Int
  interest_rate : Option ProvableFact
deriving DecidableEq, Repr

/-- `FAQModel`. -/
structure FAQModel where
  question : Option ProvableFact
  answer : Option ProvableFact
deriving DecidableEq, Repr

/-- `EmployeeModel`. -/
structure EmployeeModel where
  name : Option ProvableFact
  email : Option ProvableFact
  phone : Option ProvableFact
  role_type : RoleTypeEnum
deriving DecidableEq, Repr

/-- `ProductTypeModel`. -/
structure ProductTypeModel where
  name : ProductTypeEnum
deriving DecidableEq, Repr

/-- `RiskClassModel`. -/
structure RiskClassModel where
  risk_class : RiskClassEnum
deriving DecidableEq, Repr

/-- `KnowledgeGraphData`: the top-level product tree. The `Option`s on
`product_type`/`risk_class` and the `Option` list elements mirror the
`None` guards of `_tx_ingest_product_package`. -/
structure KnowledgeGraphData where
  product : ProductModel
  product_type : Option ProductTypeModel
  risk_class : Option RiskClassModel
  conditions : Option (List (Option ConditionModel))
  faqs : Option (List (Option FAQModel))
deriving DecidableEq, Repr

/-- `ExtractionPackage`: provenance metadata plus the extracted payload. -/
structure ExtractionPackage (α : Type) where
  metadata : Provenance
  data : α
deriving DecidableEq, Repr

/-! ## Property projections (`get_node_props` / `get_rel_props`) -/

/-- The node-property entry of a `ProvableFact` field: a surviving claim
contributes its value half; a nulled claim falls into the
`field_value is None` branch of `get_node_props` (pipeline.py line 153)
and contributes the key mapped to `None`. -/
def claimVal (c : Option ProvableFact) : Option PropValue :=
  c.map (fun f => PropValue.str f.value)

/-- The node-property entry of an `Optional[int]` scalar field. -/
def intVal (v : Option Int) : Option PropValue :=
  v.map PropValue.int

/-- `get_node_props` on a `ProductModel`. -/
def getNodePropsProduct (p : ProductModel) : NodeProps :=
  [("name", claimVal p.name), ("description", claimVal p.description)]

/-- `get_node_props` on a `ConditionModel`. -/
def getNodePropsCondition (c : ConditionModel) : NodeProps :=
  [("type", claimVal c.type), ("min_amount", intVal c.min_amount),
   ("max_amount", intVal c.max_amount), ("term_years", intVal c.term_years),
   ("interest_rate", claimVal c.interest_rate)]

/-- `get_node_props` on an `FAQModel`. -/
def getNodePropsFAQ (f : FAQModel) : NodeProps :=
  [("question", claimVal f.question), ("answer", claimVal f.answer)]

/-- `get_node_props` on an `EmployeeModel` (the enum field is reduced to
its tag string, pipeline.py lines 151-152). -/
def getNodePropsEmployee (e : EmployeeModel) : NodeProps :=
  [("name", claimVal e.name), ("email", claimVal e.email),
   ("phone", claimVal e.phone), ("role_type", some (PropValue.str e.role_type.tag))]

/-- The relationship-property entry of a `ProvableFact` field in
`get_rel_props`: only a surviving claim contributes, under the key
`<field>_evidence`. -/
def claimEv (name : String) (c : Option ProvableFact) : EvidenceProps :=
  match c with
  | some f => [(name ++ "_evidence", f.evidence)]
  | none => []

/-- `get_rel_props` on a `ProductModel`. -/
def getRelPropsProduct (p : ProductModel) : EvidenceProps :=
  claimEv "name" p.name ++ claimEv "description" p.description

/-- `get_rel_props` on a `ConditionModel`. -/
def getRelPropsCondition (c : ConditionModel) : EvidenceProps :=
  claimEv "type" c.type ++ claimEv "interest_rate" c.interest_rate

/-- `get_rel_props` on an `FAQModel`. -/
def getRelPropsFAQ (f : FAQModel) : EvidenceProps :=
  claimEv "question" f.question ++ claimEv "answer" f.answer

/-- Python `dict` assignment `props[k] = v`: overwrite the entry in place
if the key exists, else append it (insertion order preserved). -/
def setProp (props : NodeProps) (k : String) (v : Option PropValue) : NodeProps :=
  if props.any (fun p => p.1 == k)
  then props.map (fun p => if p.1 == k then (k, v) else p)
  else props ++ [(k, v)]

/-! ## Grounding (`_ground_model_recursive`) -/

/-- Grounding of one `ProvableFact` field (pipeline.py lines 112-123): an
absent field is left absent; an empty value or evidence removes the field
with no oracle call; otherwise the verification oracle keeps or removes
it. -/
def groundClaim (verify : String → String → Bool) (c : Option ProvableFact) :
    Option ProvableFact :=
  match c with
  | none => none
  | some f =>
    if f.value = "" ∨ f.evidence = "" then none
    else if verify f.value f.evidence then some f else none

/-- Grounding pass over a `ProductModel`. -/
def groundProduct (v : String → String → Bool) (p : ProductModel) : ProductModel :=
  { name := groundClaim v p.name, description := groundClaim v p.description }

/-- Grounding pass over a `ConditionModel` (plain scalars untouched). -/
def groundCondition (v : String → String → Bool) (c : ConditionModel) : ConditionModel :=
  { c with type := groundClaim v c.type, interest_rate := groundClaim v c.interest_rate }

/-- Grounding pass over an `FAQModel`. -/
def groundFAQ (v : String → String → Bool) (f : FAQModel) : FAQModel :=
  { question := groundClaim v f.question, answer := groundClaim v f.answer }

/-- Grounding pass over an `EmployeeModel` (the enum field untouched). -/
def groundEmployee (v : String → String → Bool) (e : EmployeeModel) : EmployeeModel :=
  { e with name := groundClaim v e.name, email := groundClaim v e.email,
           phone := groundClaim v e.phone }

/-- Grounding pass over the whole product tree (recursing into sub-objects
and list elements, pipeline.py lines 125-130). -/
def groundKGD (v : String → String → Bool) (d : KnowledgeGraphData) :
    KnowledgeGraphData :=
  { product := groundProduct v d.product,
    product_type := d.product_type,
    risk_class := d.risk_class,
    conditions := d.conditions.map (List.map (Option.map (groundCondition v))),
    faqs := d.faqs.map (List.map (Option.map (groundFAQ v))) }

/-! ## Product ingestion (`_tx_ingest_product_package`) -/

/-- Python `f"{x}"` on an `Optional[int]`. -/
def showOptInt (v : Option Int) : String :=
  match v with
  | none => "None"
  | some n => toString n

/-- The composite condition key of pipeline.py line 249. -/
def condKey (productName : String) (c : ConditionModel) : String :=
  productName ++ "_" ++ showOptInt c.min_amount ++ "_" ++ showOptInt c.term_years

/-- `MERGE` of a plain relationship (creates it if absent). -/
def mergeRel (s : Store) (r : RelTriple) : Store :=
  if r ∈ s.rels then s else { s with rels := s.rels ++ [r] }

/-- One iteration of the conditions loop (pipeline.py lines 247-253): a
`None` condition or one whose `interest_rate` claim is absent is skipped
outright; otherwise the condition is corroborated and linked. -/
def ingestCondition (pn : String) (meta : Provenance) (s : Store)
    (oc : Option ConditionModel) : Store :=
  match oc with
  | none => s
  | some c =>
    match c.interest_rate with
    | none => s
    | some _ =>
      let key := condKey pn c
      let np := setProp (getNodePropsCondition c) "key" (some (PropValue.str key))
      let s := (corroborate s "Condition" "key" key np (getRelPropsCondition c) meta).2
      mergeRel s ("HAS_CONDITION", ("Product", pn), ("Condition", key))

/-- One iteration of the FAQ loop (pipeline.py lines 256-262). -/
def ingestFAQ (pn : String) (meta : Provenance) (s : Store)
    (of : Option FAQModel) : Store :=
  match of with
  | none => s
  | some f =>
    match f.question with
    | none => s
    | some q =>
      let np := setProp (getNodePropsFAQ f) "question" (some (PropValue.str q.value))
      let s := (corroborate s "FAQ" "question" q.value np (getRelPropsFAQ f) meta).2
      mergeRel s ("HAS_FAQ", ("Product", pn), ("FAQ", q.value))

/-- The body of `_tx_ingest_product_package` after the missing-name guard
of pipeline.py line 231: product corroboration, the type/risk lookup
nodes and relationships, and the condition/FAQ loops. -/
def txIngestNamed (meta : Provenance) (data : KnowledgeGraphData)
    (nameFact : ProvableFact) (s : Store) : Store :=
  let pn := nameFact.value
  let pnp := setProp (getNodePropsProduct data.product) "name"
    (some (PropValue.str pn))
  let s := (corroborate s "Product" "name" pn pnp
    (getRelPropsProduct data.product) meta).2
  let s := match data.product_type with
    | some pt =>
      mergeRel (mergeEntity s "ProductType" "name" pt.name.tag)
        ("HAS_PRODUCT_TYPE", ("Product", pn), ("ProductType", pt.name.tag))
    | none => s
  let s := match data.risk_class with
    | some rc =>
      mergeRel (mergeEntity s "RiskClass" "risk_class" rc.risk_class.tag)
        ("HAS_RISK_CLASS", ("Product", pn), ("RiskClass", rc.risk_class.tag))
    | none => s
  let s := match data.conditions with
    | some conds => conds.foldl (ingestCondition pn meta) s
    | none => s
  match data.faqs with
  | some faqs => faqs.foldl (ingestFAQ pn meta) s
  | none => s

/-- `_tx_ingest_product_package` (pipeline.py lines 223-262): first the
staleness sweep over `Product|Condition|FAQ` for the package's source
url (line 229), then — only if the product name claim survived grounding
(line 231) — the rest of the ingestion. -/
def txIngestProductPackage (pkg : ExtractionPackage KnowledgeGraphData)
    (s : Store) : Store :=
  match pkg.data.product.name with
  | none => markStale s pkg.metadata.url ["Product", "Condition", "FAQ"]
  | some nameFact =>
    txIngestNamed pkg.metadata pkg.data nameFact
      (markStale s pkg.metadata.url ["Product", "Condition", "FAQ"])

/-- The two store operations whose interleavings claim C2 quantifies
over. -/
inductive StoreOp where
  | corr (label kf key : String) (np : NodeProps) (rp : EvidenceProps)
      (meta : Provenance)
  | stale (url : String) (labels : List String)

/-- Apply one store operation. -/
def applyOp (s : Store) (op : StoreOp) : Store :=
  match op with
  | .corr label kf key np rp meta => (corroborate s label kf key np rp meta).2
  | .stale url labels => markStale s url labels

/-- Number of active edges of the entity `(label, key)`. -/
def activeCount (s : Store) (label key : String) : Nat :=
  s.edges.countP (isActiveEnt label key)

/-- The data-model well-formedness of §3 of the design: `AssertionEdge`s
are keyed by the `(entity, source)` pair, so no two edges share
`(label, key, source)`. -/
def edgesKeyedUnique (s : Store) : Prop :=
  s.edges.Pairwise (fun a b => ¬(a.label = b.label ∧ a.key = b.key ∧ a.source = b.source))

/-! ## Pointwise facts about the edge transformers -/

lemma deactOne_label (lab k : String) (e : Edge) :
    (deactOne lab k e).label = e.label := by
  unfold deactOne; split <;> rfl

lemma deactOne_key (lab k : String) (e : Edge) :
    (deactOne lab k e).key = e.key := by
  unfold deactOne; split <;> rfl

lemma deactOne_source (lab k : String) (e : Edge) :
    (deactOne lab k e).source = e.source := by
  unfold deactOne; split <;> rfl

lemma setPropsOwn_label (lab k u : String) (p : AssertionProps) (e : Edge) :
    (setPropsOwn lab k u p e).label = e.label := by
  unfold setPropsOwn; split <;> rfl

lemma setPropsOwn_key (lab k u : String) (p : AssertionProps) (e : Edge) :
    (setPropsOwn lab k u p e).key = e.key := by
  unfold setPropsOwn; split <;> rfl

lemma setPropsOwn_source (lab k u : String) (p : AssertionProps) (e : Edge) :
    (setPropsOwn lab k u p e).source = e.source := by
  unfold setPropsOwn; split <;> rfl

lemma staleOne_label (u : String) (L : List String) (e : Edge) :
    (staleOne u L e).label = e.label := by
  unfold staleOne; split <;> rfl

lemma staleOne_key (u : String) (L : List String) (e : Edge) :
    (staleOne u L e).key = e.key := by
  unfold staleOne; split <;> rfl

lemma staleOne_source (u : String) (L : List String) (e : Edge) :
    (staleOne u L e).source = e.source := by
  unfold staleOne; split <;> rfl

lemma isEnt_deactOne (lab' k' lab k : String) (e : Edge) :
    isEnt lab' k' (deactOne lab k e) = isEnt lab' k' e := by
  unfold isEnt; rw [deactOne_label, deactOne_key]

lemma isOwn_deactOne (lab' k' u lab k : String) (e : Edge) :
    isOwn lab' k' u (deactOne lab k e) = isOwn lab' k' u e := by
  unfold isOwn; rw [isEnt_deactOne, deactOne_source]

lemma isEnt_setPropsOwn (lab' k' lab k u : String) (p : AssertionProps) (e : Edge) :
    isEnt lab' k' (setPropsOwn lab k u p e) = isEnt lab' k' e := by
  unfold isEnt; rw [setPropsOwn_label, setPropsOwn_key]

lemma isOwn_setPropsOwn (lab' k' u' lab k u : String) (p : AssertionProps) (e : Edge) :
    isOwn lab' k' u' (setPropsOwn lab k u p e) = isOwn lab' k' u' e := by
  unfold isOwn; rw [isEnt_setPropsOwn, setPropsOwn_source]

lemma isActiveEnt_deactOne_self (lab k : String) (e : Edge) :
    isActiveEnt lab k (deactOne lab k e) = false := by
  unfold deactOne
  split
  · unfold isActiveEnt; simp
  · simp_all

lemma deactOne_eq_self (lab k : String) (e : Edge)
    (h : isActiveEnt lab k e = false) : deactOne lab k e = e := by
  unfold deactOne; simp [h]

lemma setPropsOwn_eq_self (lab k u : String) (p : AssertionProps) (e : Edge)
    (h : isOwn lab k u e = false) : setPropsOwn lab k u p e = e := by
  unfold setPropsOwn; simp [h]

lemma isCompeting_eq (lab k u : String) (e : Edge) :
    isCompeting lab k u e = (isActiveEnt lab k e && !(e.source == u)) := by
  unfold isCompeting isActiveEnt
  cases h : isEnt lab k e <;> simp

lemma isCompeting_own_false (lab k u : String) (e : Edge)
    (h : isOwn lab k u e = true) : isCompeting lab k u e = false := by
  unfold isOwn isEnt at h
  unfold isCompeting isEnt
  simp only [Bool.and_eq_true, beq_iff_eq] at h ⊢
  simp [h.2]

lemma isCompeting_setPropsOwn (lab k u : String) (p : AssertionProps) (e : Edge) :
    isCompeting lab k u (setPropsOwn lab k u p e) = isCompeting lab k u e := by
  by_cases h : isOwn lab k u e = true
  · rw [isCompeting_own_false lab k u e h]
    apply isCompeting_own_false
    rw [isOwn_setPropsOwn]; exact h
  · rw [setPropsOwn_eq_self lab k u p e (by simpa using h)]

lemma isCompeting_deactOne (lab k u : String) (e : Edge) :
    isCompeting lab k u (deactOne lab k e) = false := by
  rw [isCompeting_eq]
  rw [isActiveEnt_deactOne_self]
  rfl

lemma isCompeting_active (lab k u : String) (e : Edge)
    (h : isCompeting lab k u e = true) : isActiveEnt lab k e = true := by
  rw [isCompeting_eq] at h
  simp only [Bool.and_eq_true] at h
  exact h.1

lemma edge_deact_eta (e : Edge) (h : e.props.is_active = false) :
    { e with props := { e.props with is_active := false } } = e := by
  cases e with
  | mk lab k src p =>
    cases p
    simp_all

/-! ## Generic list helpers -/

lemma filter_map_eq_filter {α : Type} (l : List α) (f : α → α) (p : α → Bool)
    (h1 : ∀ a, p (f a) = p a) (h2 : ∀ a, p a = true → f a = a) :
    (l.map f).filter p = l.filter p := by
  induction l with
  | nil => rfl
  | cons a t ih =>
    simp only [List.map_cons, List.filter_cons]
    rw [h1 a]
    cases h : p a
    · simpa using ih
    · rw [h2 a h]
      simpa using ih

lemma countP_le_one_of_pairwise {α : Type} (l : List α) (p : α → Bool)
    (h : l.Pairwise (fun a b => ¬(p a = true ∧ p b = true))) :
    l.countP p ≤ 1 := by
  induction l with
  | nil => simp [List.countP_nil]
  | cons a t ih =>
    rw [List.countP_cons]
    rcases List.pairwise_cons.mp h with ⟨ha, ht⟩
    cases hp : p a
    · simpa using ih ht
    · have : t.countP p = 0 := by
        rw [List.countP_eq_zero]
        intro b hb hpb
        exact ha b hb ⟨hp, hpb⟩
      simp [this]

/-! ## Basic lemmas about `corroborate` -/

lemma corroborate_fst (s : Store) (label kf key : String) (np : NodeProps)
    (rp : EvidenceProps) (meta : Provenance) :
    (corroborate s label kf key np rp meta).1 = corroborateWon s label key meta := by
  unfold corroborate
  split <;> simp_all

lemma winsAgainst_iff (meta : Provenance) (e : Edge) :
    winsAgainst meta e = true ↔
      (meta.retrieved_at > e.props.retrieved_at ∨
        (meta.retrieved_at = e.props.retrieved_at ∧
          meta.trust_score ≥ e.props.trust_score)) := by
  unfold winsAgainst
  split
  · rename_i h1
    simp only [true_iff]
    exact Or.inl h1
  · rename_i h1
    split
    · rename_i h2
      simp only [decide_eq_true_eq]
      constructor
      · intro ht; exact Or.inr ⟨h2, ht⟩
      · rintro (h | ⟨_, ht⟩)
        · exact absurd h h1
        · exact ht
    · rename_i h2
      simp only [Bool.false_eq_true, false_iff]
      rintro (h | ⟨h, _⟩)
      · exact h1 h
      · exact h2 h

/-- C1: for every corroboration call, if no competing active edge from
another source exists the new assertion wins automatically; if exactly one
competing active edge exists, the new assertion wins iff its timestamp is
strictly newer, or the timestamps are equal and its trust score is at
least the competitor's. -/
theorem c1_winner_decision (s : Store) (label kf key : String) (np : NodeProps)
    (rp : EvidenceProps) (meta : Provenance) :
    (competingEdges s label key meta.url = [] →
      (corroborate s label kf key np rp meta).1 = true) ∧
    (∀ e, competingEdges s label key meta.url = [e] →
      ((corroborate s label kf key np rp meta).1 = true ↔
        (meta.retrieved_at > e.props.retrieved_at ∨
          (meta.retrieved_at = e.props.retrieved_at ∧
            meta.trust_score ≥ e.props.trust_score)))) := by
  constructor
  · intro h
    rw [corroborate_fst]
    unfold corroborateWon
    rw [h]
    rfl
  · intro e h
    rw [corroborate_fst]
    unfold corroborateWon
    rw [h]
    exact winsAgainst_iff meta e

/-- Concrete competitor edge for the C1 witness: retrieved 2024-01-01 at
trust 0.9, active. -/
def wEdgeOld : Edge :=
  { label := "Product", key := "P", source := "sourceA",
    props := { evidence := [("name_evidence", "old snippet")],
               retrieved_at := 20240101, trust_score := mkRat 9 10, is_active := true } }

/-- Concrete store for the C1 witness. -/
def wStoreC1 : Store :=
  { sources := ["sourceA"],
    entities := [{ label := "Product", key_field := "name", key := "P",
                   props := [("name", some (PropValue.str "P"))] }],
    edges := [wEdgeOld], rels := [] }

/-- Concrete newer-but-low-trust provenance for the C1 witness. -/
def wMetaC1 : Provenance :=
  { url := "sourceB", retrieved_at := 20240201, trust_score := mkRat 1 10 }

/-- Witness for C1: against an active competitor of 2024-01-01 / trust
0.9, a new assertion of 2024-02-01 / trust 0.1 from another source wins. -/
theorem c1_winner_decision_witness :
    competingEdges wStoreC1 "Product" "P" wMetaC1.url = [wEdgeOld] ∧
    (corroborate wStoreC1 "Product" "name" "P" [] [] wMetaC1).1 = true :=
  ⟨by decide,
    ((c1_winner_decision wStoreC1 "Product" "name" "P" [] [] wMetaC1).2 wEdgeOld
      (by decide)).mpr (by decide)⟩

/-- C8: a claim leaf whose value or evidence is empty is removed by the
grounding pass, with a result independent of the verification oracle (no
oracle call can influence it); likewise at its position inside a
grounded condition. -/
theorem c8_empty_claim_removed (v₁ v₂ : String → String → Bool)
    (f : ProvableFact) (h : f.value = "" ∨ f.evidence = "") :
    groundClaim v₁ (some f) = none ∧
    groundClaim v₁ (some f) = groundClaim v₂ (some f) ∧
    (∀ c : ConditionModel, c.interest_rate = some f →
      (groundCondition v₁ c).interest_rate = none) := by
  have key : ∀ v : String → String → Bool, groundClaim v (some f) = none := by
    intro v
    simp only [groundClaim]
    rw [if_pos h]
  refine ⟨key v₁, by rw [key v₁, key v₂], ?_⟩
  intro c hc
  unfold groundCondition
  simp only
  rw [hc, key v₁]

/-- Witness for C8: the claim `{value: "2.5%", evidence: ""}` is removed
even under an oracle answering `true` everywhere. -/
theorem c8_empty_claim_removed_witness :
    ((⟨"2.5%", ""⟩ : ProvableFact).value = "" ∨
      (⟨"2.5%", ""⟩ : ProvableFact).evidence = "") ∧
    groundClaim (fun _ _ => true) (some ⟨"2.5%", ""⟩) = none :=
  ⟨Or.inr rfl,
    (c8_empty_claim_removed (fun _ _ => true) (fun _ _ => false) ⟨"2.5%", ""⟩
      (Or.inr rfl)).1⟩

/-- Concrete condition with an absent `interest_rate` claim, for C4. -/
def wCondNoRate : ConditionModel :=
  { type := none, min_amount := some 5000, max_amount := none,
    term_years := some 6, interest_rate := none }

/-- Concrete employee for the C4 amended witness. -/
def wEmployee : EmployeeModel :=
  { name := some ⟨"Max Musterman", "ev"⟩, email := none, phone := none,
    role_type := RoleTypeEnum.advisor }

/-- Counterexample to C4 as stated: a field whose claim is absent does
contribute a key to the node-property mapping — `get_node_props` falls
into its `field_value is None` branch (pipeline.py line 153) and stores
the key with value `None`, it does not omit it. -/
theorem c4_absent_claim_key_present :
    (getNodePropsCondition wCondNoRate).lookup "interest_rate" ≠ none := by
  decide

/-- C4 as amended: the projection maps each surviving claim field to its
value half, includes plain scalar fields and enum fields (enums as their
tag string), and maps a field whose claim (or optional scalar) is absent
to the key with a null value rather than omitting the key. -/
theorem c4_projection_amended (c : ConditionModel) (emp : EmployeeModel) :
    (∀ f, c.interest_rate = some f →
      (getNodePropsCondition c).lookup "interest_rate" =
        some (some (PropValue.str f.value))) ∧
    (c.interest_rate = none →
      (getNodePropsCondition c).lookup "interest_rate" = some none) ∧
    (∀ n, c.min_amount = some n →
      (getNodePropsCondition c).lookup "min_amount" =
        some (some (PropValue.int n))) ∧
    (c.min_amount = none →
      (getNodePropsCondition c).lookup "min_amount" = some none) ∧
    (getNodePropsEmployee emp).lookup "role_type" =
      some (some (PropValue.str emp.role_type.tag)) := by
  refine ⟨?_, ?_, ?_, ?_, ?_⟩
  · intro f hf
    simp [getNodePropsCondition, List.lookup, claimVal, hf]
  · intro hf
    simp [getNodePropsCondition, List.lookup, claimVal, hf]
  · intro n hn
    simp [getNodePropsCondition, List.lookup, intVal, hn]
  · intro hn
    simp [getNodePropsCondition, List.lookup, intVal, hn]
  · simp [getNodePropsEmployee, List.lookup]

/-- Witness for the amended C4 at a concrete condition and employee. -/
theorem c4_projection_amended_witness :
    (getNodePropsCondition wCondNoRate).lookup "interest_rate" = some none ∧
    (getNodePropsCondition wCondNoRate).lookup "min_amount" =
      some (some (PropValue.int 5000)) :=
  ⟨(c4_projection_amended wCondNoRate wEmployee).2.1 rfl,
   (c4_projection_amended wCondNoRate wEmployee).2.2.1 5000 rfl⟩

/-! ## Store-level helper lemmas -/

lemma markStale_edges (s : Store) (u : String) (L : List String) :
    (markStale s u L).edges = s.edges.map (staleOne u L) := rfl

lemma mergeSource_entities (s : Store) (u : String) :
    (mergeSource s u).entities = s.entities := by
  unfold mergeSource; split <;> rfl

lemma mergeSource_edges (s : Store) (u : String) :
    (mergeSource s u).edges = s.edges := by
  unfold mergeSource; split <;> rfl

lemma mergeSource_rels (s : Store) (u : String) :
    (mergeSource s u).rels = s.rels := by
  unfold mergeSource; split <;> rfl

lemma mergeEntity_edges (s : Store) (lab kf k : String) :
    (mergeEntity s lab kf k).edges = s.edges := by
  unfold mergeEntity; split <;> rfl

lemma mergeEntity_sources (s : Store) (lab kf k : String) :
    (mergeEntity s lab kf k).sources = s.sources := by
  unfold mergeEntity; split <;> rfl

lemma mergeEntity_rels (s : Store) (lab kf k : String) :
    (mergeEntity s lab kf k).rels = s.rels := by
  unfold mergeEntity; split <;> rfl

lemma mergeEntity_entities_cases (s : Store) (lab kf k : String) :
    (mergeEntity s lab kf k).entities = s.entities ∨
      ∃ n, (mergeEntity s lab kf k).entities = s.entities ++ [n] := by
  unfold mergeEntity
  split
  · exact Or.inl rfl
  · exact Or.inr ⟨_, rfl⟩

lemma mem_upsertEdge_of_not_own (l : List Edge) (lab k u : String)
    (p : AssertionProps) (e : Edge) (he : e ∈ l)
    (hown : isOwn lab k u e = false) : e ∈ upsertEdge l lab k u p := by
  unfold upsertEdge
  split
  · have : setPropsOwn lab k u p e = e := setPropsOwn_eq_self lab k u p e hown
    rw [← this]
    exact List.mem_map_of_mem _ he
  · exact List.mem_append_left _ he

lemma upsertEdge_own_mem (l : List Edge) (lab k u : String) (p : AssertionProps) :
    ∃ e ∈ upsertEdge l lab k u p, isOwn lab k u e = true ∧ e.props = p := by
  unfold upsertEdge
  split
  · rename_i h
    rcases List.any_eq_true.mp h with ⟨a, ha, hown⟩
    refine ⟨setPropsOwn lab k u p a, List.mem_map_of_mem _ ha, ?_, ?_⟩
    · rw [isOwn_setPropsOwn]; exact hown
    · unfold setPropsOwn
      rw [if_pos hown]
  · refine ⟨{ label := lab, key := k, source := u, props := p }, ?_, ?_, rfl⟩
    · exact List.mem_append_right _ (List.mem_singleton.mpr rfl)
    · unfold isOwn isEnt; simp

lemma corroborate_snd_lost (s : Store) (label kf key : String) (np : NodeProps)
    (rp : EvidenceProps) (meta : Provenance)
    (hw : corroborateWon s label key meta = false) :
    (corroborate s label kf key np rp meta).2 =
      { mergeEntity (mergeSource s meta.url) label kf key with
        edges := upsertEdge (mergeEntity (mergeSource s meta.url) label kf key).edges
          label key meta.url
          { evidence := rp, retrieved_at := meta.retrieved_at,
            trust_score := meta.trust_score, is_active := false } } := by
  unfold corroborate
  rw [if_neg (by simp [hw])]

lemma corroborate_snd_won (s : Store) (label kf key : String) (np : NodeProps)
    (rp : EvidenceProps) (meta : Provenance)
    (hw : corroborateWon s label key meta = true) :
    (corroborate s label kf key np rp meta).2 =
      { mergeEntity (mergeSource s meta.url) label kf key with
        entities := setEntityProps
          (mergeEntity (mergeSource s meta.url) label kf key).entities label kf key np,
        edges := upsertEdge
          (deactivateEdges
            (mergeEntity (mergeSource s meta.url) label kf key).edges label key)
          label key meta.url
          { evidence := rp, retrieved_at := meta.retrieved_at,
            trust_score := meta.trust_score, is_active := true } } := by
  unfold corroborate
  rw [if_pos (by simp [hw])]

/-- C7: the staleness sweep leaves the entity snapshots, the source nodes
and the plain relationships alone; it keeps every edge that is not an
active edge of a swept label pointing at the sweeping source, flips every
edge that is, and every edge still active afterwards was an untouched
pre-existing edge that either belongs to another source or to an entity
outside the swept labels. -/
theorem c7_mark_stale_frame (s : Store) (u : String) (L : List String) :
    (markStale s u L).entities = s.entities ∧
    (markStale s u L).sources = s.sources ∧
    (markStale s u L).rels = s.rels ∧
    (markStale s u L).edges.length = s.edges.length ∧
    (∀ e ∈ s.edges,
      (L.contains e.label && e.props.is_active && e.source == u) = false →
        e ∈ (markStale s u L).edges) ∧
    (∀ e ∈ s.edges,
      (L.contains e.label && e.props.is_active && e.source == u) = true →
        { e with props := { e.props with is_active := false } } ∈
          (markStale s u L).edges) ∧
    (∀ e ∈ (markStale s u L).edges, e.props.is_active = true →
        e ∈ s.edges ∧ (L.contains e.label && e.source == u) = false) := by
  refine ⟨rfl, rfl, rfl, by rw [markStale_edges, List.length_map], ?_, ?_, ?_⟩
  · intro e he hc
    have heq : staleOne u L e = e := by
      unfold staleOne
      rw [if_neg (by rw [hc]; exact Bool.false_ne_true)]
    rw [markStale_edges, ← heq]
    exact List.mem_map_of_mem _ he
  · intro e he hc
    have heq : staleOne u L e =
        { e with props := { e.props with is_active := false } } := by
      unfold staleOne
      rw [if_pos hc]
    rw [markStale_edges, ← heq]
    exact List.mem_map_of_mem _ he
  · intro e he hact
    rw [markStale_edges] at he
    rcases List.mem_map.mp he with ⟨a, ha, rfl⟩
    by_cases hc : (L.contains a.label && a.props.is_active && a.source == u) = true
    · exfalso
      have heq : staleOne u L a =
          { a with props := { a.props with is_active := false } } := by
        unfold staleOne
        rw [if_pos hc]
      rw [heq] at hact
      simp at hact
    · have heq : staleOne u L a = a := by
        unfold staleOne
        rw [if_neg hc]
      rw [heq] at hact ⊢
      refine ⟨ha, ?_⟩
      rw [Bool.not_eq_true] at hc
      rw [hact] at hc
      simpa using hc

/-- Concrete active Product edge from `sourceA`, for the C7 witness. -/
def wEdgeXA : Edge :=
  { label := "Product", key := "X", source := "sourceA",
    props := { evidence := [], retrieved_at := 1, trust_score := 1,
               is_active := true } }

/-- Concrete active Product edge of another entity from `sourceB`, for
the C7 witness. -/
def wEdgeYB : Edge :=
  { label := "Product", key := "Y", source := "sourceB",
    props := { evidence := [], retrieved_at := 2, trust_score := 1,
               is_active := true } }

/-- Concrete store for the C7 witness. -/
def wStoreC7 : Store :=
  { sources := ["sourceA", "sourceB"], entities := [],
    edges := [wEdgeXA, wEdgeYB], rels := [] }

/-- Witness for C7: sweeping `sourceA` over Product flips its active edge
and keeps the other source's edge untouched. -/
theorem c7_mark_stale_frame_witness :
    { wEdgeXA with props := { wEdgeXA.props with is_active := false } } ∈
      (markStale wStoreC7 "sourceA" ["Product", "Condition", "FAQ"]).edges ∧
    wEdgeYB ∈
      (markStale wStoreC7 "sourceA" ["Product", "Condition", "FAQ"]).edges :=
  ⟨(c7_mark_stale_frame wStoreC7 "sourceA" ["Product", "Condition", "FAQ"]).2.2.2.2.2.1
      wEdgeXA (by decide) (by decide),
   (c7_mark_stale_frame wStoreC7 "sourceA" ["Product", "Condition", "FAQ"]).2.2.2.2.1
      wEdgeYB (by decide) (by decide)⟩

/-- C9: a Lost corroboration leaves every entity snapshot unchanged (at
most appending a fresh key-only entity node), keeps every edge other than
the `(entity, sourceId)` edge exactly as it was — in particular the
currently-active edge — and still upserts the `(entity, sourceId)` edge
with `active = false` and the new assertion properties replacing its
prior properties. -/
theorem c9_lost_frame (s : Store) (label kf key : String) (np : NodeProps)
    (rp : EvidenceProps) (meta : Provenance)
    (h : (corroborate s label kf key np rp meta).1 = false) :
    ((corroborate s label kf key np rp meta).2.entities = s.entities ∨
      ∃ n, (corroborate s label kf key np rp meta).2.entities = s.entities ++ [n]) ∧
    (∀ e ∈ s.edges, isOwn label key meta.url e = false →
      e ∈ (corroborate s label kf key np rp meta).2.edges) ∧
    (∃ e ∈ (corroborate s label kf key np rp meta).2.edges,
      isOwn label key meta.url e = true ∧
      e.props = { evidence := rp, retrieved_at := meta.retrieved_at,
                  trust_score := meta.trust_score, is_active := false }) := by
  have hw : corroborateWon s label key meta = false := by
    rw [← corroborate_fst s label kf key np rp meta]
    exact h
  rw [corroborate_snd_lost s label kf key np rp meta hw]
  refine ⟨?_, ?_, ?_⟩
  · have := mergeEntity_entities_cases (mergeSource s meta.url) label kf key
    rw [mergeSource_entities] at this
    simpa using this
  · intro e he hown
    have he' : e ∈ (mergeEntity (mergeSource s meta.url) label kf key).edges := by
      rw [mergeEntity_edges, mergeSource_edges]
      exact he
    exact mem_upsertEdge_of_not_own _ label key meta.url _ e he' hown
  · exact upsertEdge_own_mem _ label key meta.url _

/-- Concrete store for the C9 witness: an active competitor from
`sourceA` with a strictly newer timestamp, so the incoming assertion
loses. -/
def wStoreC9 : Store :=
  { sources := ["sourceA"],
    entities := [{ label := "Product", key_field := "name", key := "P",
                   props := [("name", some (PropValue.str "P"))] }],
    edges := [{ label := "Product", key := "P", source := "sourceA",
                props := { evidence := [], retrieved_at := 20240301,
                           trust_score := mkRat 1 2, is_active := true } }],
    rels := [] }

/-- Concrete older provenance for the C9 witness. -/
def wMetaC9 : Provenance :=
  { url := "sourceB", retrieved_at := 20240201, trust_score := mkRat 1 2 }

/-- Witness for C9: the losing source's edge is recorded inactive with
the new assertion properties. -/
theorem c9_lost_frame_witness :
    ∃ e ∈ (corroborate wStoreC9 "Product" "name" "P" []
        [("name_evidence", "snippet")] wMetaC9).2.edges,
      isOwn "Product" "P" "sourceB" e = true ∧
      e.props = { evidence := [("name_evidence", "snippet")],
                  retrieved_at := 20240201, trust_score := mkRat 1 2,
                  is_active := false } :=
  (c9_lost_frame wStoreC9 "Product" "name" "P" [] [("name_evidence", "snippet")]
    wMetaC9 (by decide)).2.2

/-! ## C10, C5, C3 -/

lemma ingestCondition_skip (pn : String) (meta : Provenance) (s : Store)
    (c : Option ConditionModel)
    (h : c = none ∨ ∃ cm, c = some cm ∧ cm.interest_rate = none) :
    ingestCondition pn meta s c = s := by
  rcases h with h | ⟨cm, hc, hr⟩
  · rw [h]; rfl
  · rw [hc]
    simp only [ingestCondition]
    rw [hr]

lemma foldl_skip_middle {α β : Type} (f : β → α → β) (b : β)
    (pre post : List α) (x : α) (hx : ∀ b', f b' x = b') :
    (pre ++ x :: post).foldl f b = (pre ++ post).foldl f b := by
  rw [List.foldl_append, List.foldl_append, List.foldl_cons, hx]

/-- C10: a condition-list entry that is `None`, or whose `interest_rate`
claim is absent (e.g. nulled by grounding), is skipped entirely by
product ingestion — the resulting store is the same as if the entry were
not in the list at all, so no Condition entity and no AssertionEdge (not
even an inactive audit record) is created or updated for it. -/
theorem c10_condition_skipped (pkg : ExtractionPackage KnowledgeGraphData)
    (s : Store) (pre post : List (Option ConditionModel))
    (c : Option ConditionModel)
    (hconds : pkg.data.conditions = some (pre ++ c :: post))
    (hskip : c = none ∨ ∃ cm, c = some cm ∧ cm.interest_rate = none) :
    txIngestProductPackage pkg s =
      txIngestProductPackage
        { pkg with data := { pkg.data with conditions := some (pre ++ post) } } s := by
  rcases pkg with ⟨meta, prod, ptype, risk, conds, faqs⟩
  simp only at hconds
  subst hconds
  simp only [txIngestProductPackage]
  cases hname : prod.name with
  | none => rfl
  | some nameFact =>
    simp only [txIngestNamed]
    have hfold : ∀ s' : Store,
        (pre ++ c :: post).foldl (ingestCondition nameFact.value meta) s' =
          (pre ++ post).foldl (ingestCondition nameFact.value meta) s' := by
      intro s'
      exact foldl_skip_middle _ s' pre post c
        (fun b' => ingestCondition_skip nameFact.value meta b' c hskip)
    rw [hfold]

/-- Concrete product package for the C10 witness: a single condition
whose interest-rate claim was nulled. -/
def wPkgC10 : ExtractionPackage KnowledgeGraphData :=
  { metadata := { url := "sourceA", retrieved_at := 1, trust_score := 1 },
    data :=
      { product := { name := some ⟨"P", "ev"⟩, description := none },
        product_type := none, risk_class := none,
        conditions := some [some wCondNoRate], faqs := none } }

/-- Witness for C10: ingesting the package with its rate-less condition
equals ingesting it with the condition removed. -/
theorem c10_condition_skipped_witness :
    txIngestProductPackage wPkgC10
        { sources := [], entities := [], edges := [], rels := [] } =
      txIngestProductPackage
        { wPkgC10 with data := { wPkgC10.data with conditions := some ([] ++ []) } }
        { sources := [], entities := [], edges := [], rels := [] } :=
  c10_condition_skipped wPkgC10
    { sources := [], entities := [], edges := [], rels := [] }
    [] [] (some wCondNoRate) rfl (Or.inr ⟨wCondNoRate, rfl, rfl⟩)

/-- Concrete store for the C5 counterexample: one active Product edge
from the package's own source. -/
def wStoreC5 : Store :=
  { sources := ["sourceA"],
    entities := [{ label := "Product", key_field := "name", key := "Old",
                   props := [("name", some (PropValue.str "Old"))] }],
    edges := [{ label := "Product", key := "Old", source := "sourceA",
                props := { evidence := [], retrieved_at := 1, trust_score := 1,
                           is_active := true } }],
    rels := [] }

/-- Concrete package whose product name claim is absent (e.g. nulled by
grounding), for C5. -/
def wPkgC5 : ExtractionPackage KnowledgeGraphData :=
  { metadata := { url := "sourceA", retrieved_at := 2, trust_score := 1 },
    data :=
      { product := { name := none, description := none },
        product_type := none, risk_class := none,
        conditions := none, faqs := none } }

/-- Counterexample to C5 as stated: a package whose top-level entity has
no usable natural key still performs store writes — the staleness sweep
of `_tx_ingest_product_package` (pipeline.py line 229) runs before the
missing-name check of line 231, so the source's previously-active edges
are deactivated. -/
theorem c5_sweep_still_runs :
    txIngestProductPackage wPkgC5 wStoreC5 ≠ wStoreC5 := by
  decide

/-- C5 as amended: when the product name claim is absent after grounding,
the entity is skipped — no corroboration, no entity write, no
relationship write — but the transaction is still opened and its
staleness sweep over `Product|Condition|FAQ` edges of the package's
source is still performed, and nothing else happens. -/
theorem c5_skip_after_sweep (pkg : ExtractionPackage KnowledgeGraphData)
    (s : Store) (h : pkg.data.product.name = none) :
    txIngestProductPackage pkg s =
      markStale s pkg.metadata.url ["Product", "Condition", "FAQ"] := by
  unfold txIngestProductPackage
  rw [h]


/-- Witness for the amended C5 at the concrete package and store. -/
theorem c5_skip_after_sweep_witness :
    txIngestProductPackage wPkgC5 wStoreC5 =
      markStale wStoreC5 "sourceA" ["Product", "Condition", "FAQ"] :=
  c5_skip_after_sweep wPkgC5 wStoreC5 rfl

/-- First competing edge (newer than the incoming assertion), for C3. -/
def wEdgeC3A : Edge :=
  { label := "Product", key := "P", source := "sourceA",
    props := { evidence := [], retrieved_at := 10, trust_score := 1,
               is_active := true } }

/-- Second competing edge (older than the incoming assertion), for C3. -/
def wEdgeC3B : Edge :=
  { label := "Product", key := "P", source := "sourceB",
    props := { evidence := [], retrieved_at := 0, trust_score := 1,
               is_active := true } }

/-- Concrete store violating the at-most-one-active invariant: two
competing active edges for the same entity, for C3. -/
def wStoreC3 : Store :=
  { sources := ["sourceA", "sourceB"],
    entities := [{ label := "Product", key_field := "name", key := "P",
                   props := [("name", some (PropValue.str "P"))] }],
    edges := [wEdgeC3A, wEdgeC3B], rels := [] }

/-- Concrete provenance sitting between the two competitors' timestamps,
for C3. -/
def wMetaC3 : Provenance :=
  { url := "sourceC", retrieved_at := 5, trust_score := 1 }

/-- Counterexample to C3 as stated: with two competing active edges the
corroboration does not raise any error — `result.single()` of the neo4j
driver emits a non-fatal warning and returns the first record, so the
call completes normally (here: Lost, judged against the first edge only,
although the new assertion would beat the second edge). -/
theorem c3_multi_competing_silent :
    (competingEdges wStoreC3 "Product" "P" "sourceC").length = 2 ∧
    (corroborate wStoreC3 "Product" "name" "P" [] [] wMetaC3).1 = false ∧
    winsAgainst wMetaC3 wEdgeC3B = true := by
  decide

/-- C3 as amended: when one or more competing active edges exist, the
operation completes without error and its decision is taken against the
first competing edge returned, ignoring any further ones. -/
theorem c3_first_edge_decides (s : Store) (label kf key : String)
    (np : NodeProps) (rp : EvidenceProps) (meta : Provenance) (e : Edge)
    (rest : List Edge)
    (h : competingEdges s label key meta.url = e :: rest) :
    (corroborate s label kf key np rp meta).1 = winsAgainst meta e := by
  rw [corroborate_fst]
  unfold corroborateWon
  rw [h]
  rfl

/-- Witness for the amended C3: in the two-competitor store the decision
equals the verdict against the first competitor alone. -/
theorem c3_first_edge_decides_witness :
    (corroborate wStoreC3 "Product" "name" "P" [] [] wMetaC3).1 =
      winsAgainst wMetaC3 wEdgeC3A :=
  c3_first_edge_decides wStoreC3 "Product" "name" "P" [] [] wMetaC3
    wEdgeC3A [wEdgeC3B] (by decide)

/-! ## C2: preservation of the at-most-one-active invariant -/

lemma isActiveEnt_staleOne_imp (l0 k0 u : String) (L : List String) (e : Edge)
    (h : isActiveEnt l0 k0 (staleOne u L e) = true) :
    isActiveEnt l0 k0 e = true := by
  unfold staleOne at h
  split at h
  · unfold isActiveEnt at h
    simp at h
  · exact h

lemma isActiveEnt_deactOne_imp (l0 k0 lab k : String) (e : Edge)
    (h : isActiveEnt l0 k0 (deactOne lab k e) = true) :
    isActiveEnt l0 k0 e = true := by
  unfold deactOne at h
  split at h
  · unfold isActiveEnt at h
    simp at h
  · exact h

lemma isActiveEnt_deactOne_other (l0 k0 lab k : String) (e : Edge)
    (hne : ¬(lab = l0 ∧ k = k0)) :
    isActiveEnt l0 k0 (deactOne lab k e) = isActiveEnt l0 k0 e := by
  unfold deactOne
  split
  · rename_i hcond
    unfold isActiveEnt isEnt at hcond
    simp only [Bool.and_eq_true, beq_iff_eq] at hcond
    obtain ⟨⟨hl, hk⟩, ha⟩ := hcond
    subst hl hk
    have hfalse : (e.label == l0 && e.key == k0) = false := by
      cases hb1 : (e.label == l0) <;> cases hb2 : (e.key == k0) <;> simp_all
    unfold isActiveEnt isEnt
    simp [hfalse]
  · rfl

lemma isActiveEnt_setPropsOwn_other (l0 k0 lab k u : String)
    (p : AssertionProps) (e : Edge) (hne : ¬(lab = l0 ∧ k = k0)) :
    isActiveEnt l0 k0 (setPropsOwn lab k u p e) = isActiveEnt l0 k0 e := by
  unfold setPropsOwn
  split
  · rename_i hcond
    unfold isOwn isEnt at hcond
    simp only [Bool.and_eq_true, beq_iff_eq] at hcond
    obtain ⟨⟨hl, hk⟩, _⟩ := hcond
    subst hl hk
    have hfalse : (e.label == l0 && e.key == k0) = false := by
      cases hb1 : (e.label == l0) <;> cases hb2 : (e.key == k0) <;> simp_all
    unfold isActiveEnt isEnt
    simp [hfalse]
  · rfl

lemma isActiveEnt_setPropsOwn_inactive (l0 k0 lab k u : String)
    (p : AssertionProps) (e : Edge) (hp : p.is_active = false)
    (h : isActiveEnt l0 k0 (setPropsOwn lab k u p e) = true) :
    isActiveEnt l0 k0 e = true := by
  unfold setPropsOwn at h
  split at h
  · unfold isActiveEnt at h
    simp [hp] at h
  · exact h

lemma countP_deact_self (l : List Edge) (lab k : String) :
    (deactivateEdges l lab k).countP (isActiveEnt lab k) = 0 := by
  unfold deactivateEdges
  rw [List.countP_map, List.countP_eq_zero]
  intro e _ h
  exact absurd (isActiveEnt_deactOne_self lab k e)
    (by simp only [Function.comp] at h; simp [h])

lemma countP_deact_other (l : List Edge) (l0 k0 lab k : String)
    (hne : ¬(lab = l0 ∧ k = k0)) :
    (deactivateEdges l lab k).countP (isActiveEnt l0 k0) =
      l.countP (isActiveEnt l0 k0) := by
  unfold deactivateEdges
  rw [List.countP_map]
  apply List.countP_congr
  intro e _
  simp only [Function.comp]
  rw [isActiveEnt_deactOne_other l0 k0 lab k e hne]

lemma countP_upsert_inactive_le (l : List Edge) (l0 k0 lab k u : String)
    (p : AssertionProps) (hp : p.is_active = false) :
    (upsertEdge l lab k u p).countP (isActiveEnt l0 k0) ≤
      l.countP (isActiveEnt l0 k0) := by
  unfold upsertEdge
  split
  · rw [List.countP_map]
    exact List.countP_mono_left (fun e he h => by
      simp only [Function.comp] at h
      exact isActiveEnt_setPropsOwn_inactive l0 k0 lab k u p e hp (by simpa using h))
  · rw [List.countP_append]
    have : ([({ label := lab, key := k, source := u, props := p } : Edge)]).countP
        (isActiveEnt l0 k0) = 0 := by
      rw [List.countP_eq_zero]
      intro e he h
      rw [List.mem_singleton] at he
      subst he
      unfold isActiveEnt at h
      simp [hp] at h
    omega

lemma countP_upsert_other (l : List Edge) (l0 k0 lab k u : String)
    (p : AssertionProps) (hne : ¬(lab = l0 ∧ k = k0)) :
    (upsertEdge l lab k u p).countP (isActiveEnt l0 k0) =
      l.countP (isActiveEnt l0 k0) := by
  unfold upsertEdge
  split
  · rw [List.countP_map]
    apply List.countP_congr
    intro e _
    simp only [Function.comp]
    rw [isActiveEnt_setPropsOwn_other l0 k0 lab k u p e hne]
  · rw [List.countP_append]
    have : ([({ label := lab, key := k, source := u, props := p } : Edge)]).countP
        (isActiveEnt l0 k0) = 0 := by
      rw [List.countP_eq_zero]
      intro e he h
      rw [List.mem_singleton] at he
      subst he
      unfold isActiveEnt isEnt at h
      simp only [Bool.and_eq_true, beq_iff_eq] at h
      exact hne ⟨h.1.1, h.1.2⟩
    omega

/-- Uniqueness of `(label, key, source)` triples survives any map that
preserves the three fields. -/
lemma unique_map (l : List Edge) (f : Edge → Edge)
    (hf : ∀ e, (f e).label = e.label ∧ (f e).key = e.key ∧ (f e).source = e.source)
    (h : l.Pairwise
      (fun a b => ¬(a.label = b.label ∧ a.key = b.key ∧ a.source = b.source))) :
    (l.map f).Pairwise
      (fun a b => ¬(a.label = b.label ∧ a.key = b.key ∧ a.source = b.source)) := by
  refine List.Pairwise.map f ?_ h
  intro a b hab hcon
  rcases hf a with ⟨ha1, ha2, ha3⟩
  rcases hf b with ⟨hb1, hb2, hb3⟩
  refine hab ⟨?_, ?_, ?_⟩
  · rw [← ha1, ← hb1]; exact hcon.1
  · rw [← ha2, ← hb2]; exact hcon.2.1
  · rw [← ha3, ← hb3]; exact hcon.2.2

lemma unique_upsertEdge (l : List Edge) (lab k u : String) (p : AssertionProps)
    (h : l.Pairwise
      (fun a b => ¬(a.label = b.label ∧ a.key = b.key ∧ a.source = b.source))) :
    (upsertEdge l lab k u p).Pairwise
      (fun a b => ¬(a.label = b.label ∧ a.key = b.key ∧ a.source = b.source)) := by
  unfold upsertEdge
  split
  · exact unique_map l _ (fun e => ⟨setPropsOwn_label _ _ _ _ _,
      setPropsOwn_key _ _ _ _ _, setPropsOwn_source _ _ _ _ _⟩) h
  · rename_i hany
    rw [List.pairwise_append]
    refine ⟨h, List.pairwise_singleton _ _, ?_⟩
    intro a ha b hb
    rw [List.mem_singleton] at hb
    subst hb
    intro hcon
    have : l.any (isOwn lab k u) = true := by
      rw [List.any_eq_true]
      refine ⟨a, ha, ?_⟩
      unfold isOwn isEnt
      simp only [Bool.and_eq_true, beq_iff_eq]
      exact ⟨⟨hcon.1, hcon.2.1⟩, hcon.2.2⟩
    simp_all

lemma countP_own_le_one (l : List Edge) (lab k u : String)
    (h : l.Pairwise
      (fun a b => ¬(a.label = b.label ∧ a.key = b.key ∧ a.source = b.source))) :
    l.countP (isOwn lab k u) ≤ 1 := by
  apply countP_le_one_of_pairwise
  apply List.Pairwise.imp _ h
  intro a b hab hcon
  rcases hcon with ⟨hpa, hpb⟩
  unfold isOwn isEnt at hpa hpb
  simp only [Bool.and_eq_true, beq_iff_eq] at hpa hpb
  exact hab ⟨hpa.1.1.trans hpb.1.1.symm, hpa.1.2.trans hpb.1.2.symm,
    hpa.2.trans hpb.2.symm⟩

lemma countP_upsert_active_same (l : List Edge) (lab k u : String)
    (p : AssertionProps)
    (hzero : l.countP (isActiveEnt lab k) = 0)
    (hu : l.Pairwise
      (fun a b => ¬(a.label = b.label ∧ a.key = b.key ∧ a.source = b.source))) :
    (upsertEdge l lab k u p).countP (isActiveEnt lab k) ≤ 1 := by
  unfold upsertEdge
  split
  · rw [List.countP_map]
    calc l.countP (isActiveEnt lab k ∘ setPropsOwn lab k u p)
        ≤ l.countP (isOwn lab k u) := by
          apply List.countP_mono_left
          intro e he h
          by_cases hown : isOwn lab k u e = true
          · exact hown
          · exfalso
            have heq : setPropsOwn lab k u p e = e :=
              setPropsOwn_eq_self lab k u p e (by simpa using hown)
            simp only [Function.comp] at h
            rw [heq] at h
            have := (List.countP_eq_zero.mp hzero) e he
            simp_all
      _ ≤ 1 := countP_own_le_one l lab k u hu
  · rw [List.countP_append]
    have h1 : l.countP (isActiveEnt lab k) = 0 := hzero
    have h2 : ([({ label := lab, key := k, source := u, props := p } : Edge)]).countP
        (isActiveEnt lab k) ≤ 1 := by
      rw [List.countP_singleton]
      split <;> omega
    omega

lemma markStale_activeCount_le (s : Store) (u : String) (L : List String)
    (l0 k0 : String) :
    activeCount (markStale s u L) l0 k0 ≤ activeCount s l0 k0 := by
  unfold activeCount
  rw [markStale_edges, List.countP_map]
  exact List.countP_mono_left (fun e he h => by
    simp only [Function.comp] at h
    exact isActiveEnt_staleOne_imp l0 k0 u L e (by simpa using h))

lemma markStale_unique (s : Store) (u : String) (L : List String)
    (h : edgesKeyedUnique s) : edgesKeyedUnique (markStale s u L) := by
  unfold edgesKeyedUnique at h ⊢
  rw [markStale_edges]
  exact unique_map _ _ (fun e => ⟨staleOne_label _ _ _, staleOne_key _ _ _,
    staleOne_source _ _ _⟩) h

lemma corroborate_unique (s : Store) (lab kf k : String) (np : NodeProps)
    (rp : EvidenceProps) (meta : Provenance) (h : edgesKeyedUnique s) :
    edgesKeyedUnique (corroborate s lab kf k np rp meta).2 := by
  have hedges : (mergeEntity (mergeSource s meta.url) lab kf k).edges = s.edges := by
    rw [mergeEntity_edges, mergeSource_edges]
  cases hw : corroborateWon s lab k meta
  · rw [corroborate_snd_lost s lab kf k np rp meta hw]
    unfold edgesKeyedUnique
    simp only [hedges]
    exact unique_upsertEdge _ _ _ _ _ h
  · rw [corroborate_snd_won s lab kf k np rp meta hw]
    unfold edgesKeyedUnique
    simp only [hedges]
    apply unique_upsertEdge
    exact unique_map _ _ (fun e => ⟨deactOne_label _ _ _, deactOne_key _ _ _,
      deactOne_source _ _ _⟩) h

lemma corroborate_activeCount (s : Store) (lab kf k : String) (np : NodeProps)
    (rp : EvidenceProps) (meta : Provenance) (l0 k0 : String)
    (hu : edgesKeyedUnique s) :
    activeCount (corroborate s lab kf k np rp meta).2 l0 k0 ≤
      max 1 (activeCount s l0 k0) := by
  have hedges : (mergeEntity (mergeSource s meta.url) lab kf k).edges = s.edges := by
    rw [mergeEntity_edges, mergeSource_edges]
  cases hw : corroborateWon s lab k meta
  · rw [corroborate_snd_lost s lab kf k np rp meta hw]
    unfold activeCount
    simp only [hedges]
    calc (upsertEdge s.edges lab k meta.url _).countP (isActiveEnt l0 k0)
        ≤ s.edges.countP (isActiveEnt l0 k0) :=
          countP_upsert_inactive_le s.edges l0 k0 lab k meta.url _ rfl
      _ ≤ max 1 (s.edges.countP (isActiveEnt l0 k0)) := le_max_right _ _
  · rw [corroborate_snd_won s lab kf k np rp meta hw]
    unfold activeCount
    simp only [hedges]
    by_cases hsame : lab = l0 ∧ k = k0
    · obtain ⟨rfl, rfl⟩ := hsame
      calc (upsertEdge (deactivateEdges s.edges lab k) lab k meta.url _).countP
            (isActiveEnt lab k)
          ≤ 1 := by
            apply countP_upsert_active_same
            · exact countP_deact_self s.edges lab k
            · exact unique_map _ _ (fun e => ⟨deactOne_label _ _ _,
                deactOne_key _ _ _, deactOne_source _ _ _⟩) hu
        _ ≤ max 1 (s.edges.countP (isActiveEnt lab k)) := le_max_left _ _
    · rw [countP_upsert_other _ l0 k0 lab k meta.url _ hsame,
        countP_deact_other _ l0 k0 lab k hsame]
      exact le_max_right _ _

lemma applyOp_unique (s : Store) (op : StoreOp) (h : edgesKeyedUnique s) :
    edgesKeyedUnique (applyOp s op) := by
  cases op with
  | corr lab kf k np rp meta => exact corroborate_unique s lab kf k np rp meta h
  | stale u L => exact markStale_unique s u L h

lemma applyOp_activeCount (s : Store) (op : StoreOp) (l0 k0 : String)
    (hu : edgesKeyedUnique s) :
    activeCount (applyOp s op) l0 k0 ≤ max 1 (activeCount s l0 k0) := by
  cases op with
  | corr lab kf k np rp meta => exact corroborate_activeCount s lab kf k np rp meta l0 k0 hu
  | stale u L => exact le_trans (markStale_activeCount_le s u L l0 k0) (le_max_right _ _)

/-- C2: starting from any store whose edges are keyed by their
`(entity, source)` pair and in which the entity has at most one active
assertion edge, any sequence of corroborations and staleness sweeps
leaves the entity with at most one active assertion edge (applying the
theorem to every prefix gives the bound at every quiescent point). -/
theorem c2_at_most_one_active (ops : List StoreOp) (s : Store) (l0 k0 : String)
    (hu : edgesKeyedUnique s) (h1 : activeCount s l0 k0 ≤ 1) :
    activeCount (ops.foldl applyOp s) l0 k0 ≤ 1 := by
  induction ops generalizing s with
  | nil => exact h1
  | cons op t ih =>
    rw [List.foldl_cons]
    refine ih (applyOp s op) (applyOp_unique s op hu) ?_
    have := applyOp_activeCount s op l0 k0 hu
    have hmax : max 1 (activeCount s l0 k0) ≤ 1 := max_le (le_refl 1) h1
    omega

/-- Witness for C2: a corroboration over an occupied entity followed by a
staleness sweep keeps the edge count of the entity at one or below. -/
theorem c2_at_most_one_active_witness :
    edgesKeyedUnique wStoreC1 ∧ activeCount wStoreC1 "Product" "P" ≤ 1 ∧
    activeCount
      (([StoreOp.corr "Product" "name" "P" [] [] wMetaC1,
         StoreOp.stale "sourceB" ["Product", "Condition", "FAQ"]].foldl applyOp
        wStoreC1)) "Product" "P" ≤ 1 :=
  ⟨by unfold edgesKeyedUnique; exact List.pairwise_singleton _ _, by decide,
    c2_at_most_one_active
      [StoreOp.corr "Product" "name" "P" [] [] wMetaC1,
       StoreOp.stale "sourceB" ["Product", "Condition", "FAQ"]]
      wStoreC1 "Product" "P"
      (by unfold edgesKeyedUnique; exact List.pairwise_singleton _ _)
      (by decide)⟩

/-! ## C6: idempotence of `corroborate` -/

lemma isOwn_newEdge (lab k u : String) (p : AssertionProps) :
    isOwn lab k u { label := lab, key := k, source := u, props := p } = true := by
  unfold isOwn isEnt
  simp

lemma isOwn_false_of_competing (lab k u : String) (e : Edge)
    (h : isCompeting lab k u e = true) : isOwn lab k u e = false := by
  unfold isCompeting at h
  unfold isOwn
  simp only [Bool.and_eq_true] at h
  rcases h with ⟨⟨_, _⟩, hs⟩
  cases hsrc : (e.source == u)
  · simp
  · rw [hsrc] at hs
    simp at hs

lemma setPropsOwn_own (lab k u : String) (p : AssertionProps) (e : Edge)
    (h : isOwn lab k u e = true) :
    setPropsOwn lab k u p e = { e with props := p } := by
  unfold setPropsOwn
  rw [if_pos h]

lemma isOwn_props_update (lab k u : String) (p : AssertionProps) (e : Edge) :
    isOwn lab k u { e with props := p } = isOwn lab k u e := rfl

lemma edge_props_override (e1 e2 : Edge) (p : AssertionProps)
    (h1 : e1.label = e2.label) (h2 : e1.key = e2.key) (h3 : e1.source = e2.source) :
    ({ e1 with props := p } : Edge) = { e2 with props := p } := by
  cases e1; cases e2; simp_all

lemma any_pointwise {α : Type} (l : List α) (p q : α → Bool)
    (h : ∀ a, p a = q a) : l.any p = l.any q := by
  induction l with
  | nil => rfl
  | cons a t ih => simp [List.any_cons, h a, ih]

lemma any_own_map_setPropsOwn (l : List Edge) (lab k u : String) (p : AssertionProps) :
    (l.map (setPropsOwn lab k u p)).any (isOwn lab k u) = l.any (isOwn lab k u) := by
  rw [List.any_map]
  apply any_pointwise
  intro e
  simp only [Function.comp]
  rw [isOwn_setPropsOwn]

lemma any_own_deact (l : List Edge) (lab k u lab' k' : String) :
    (deactivateEdges l lab' k').any (isOwn lab k u) = l.any (isOwn lab k u) := by
  unfold deactivateEdges
  rw [List.any_map]
  apply any_pointwise
  intro e
  simp only [Function.comp]
  rw [isOwn_deactOne]

lemma upsert_upsert (l : List Edge) (lab k u : String) (p q : AssertionProps) :
    upsertEdge (upsertEdge l lab k u p) lab k u q = upsertEdge l lab k u q := by
  by_cases hany : l.any (isOwn lab k u) = true
  · have h1 : upsertEdge l lab k u p = l.map (setPropsOwn lab k u p) := by
      unfold upsertEdge; rw [if_pos hany]
    have h2 : upsertEdge l lab k u q = l.map (setPropsOwn lab k u q) := by
      unfold upsertEdge; rw [if_pos hany]
    rw [h1, h2]
    have hany2 : (l.map (setPropsOwn lab k u p)).any (isOwn lab k u) = true := by
      rw [any_own_map_setPropsOwn]; exact hany
    unfold upsertEdge
    rw [if_pos hany2, List.map_map]
    apply List.map_congr_left
    intro e _
    simp only [Function.comp]
    by_cases hown : isOwn lab k u e = true
    · rw [setPropsOwn_own lab k u p e hown,
        setPropsOwn_own lab k u q _ (by rw [isOwn_props_update]; exact hown)]
      rw [setPropsOwn_own lab k u q e hown]
    · rw [setPropsOwn_eq_self lab k u p e (by simpa using hown)]
  · have hfalse : l.any (isOwn lab k u) = false := by simpa using hany
    have h1 : upsertEdge l lab k u p =
        l ++ [{ label := lab, key := k, source := u, props := p }] := by
      unfold upsertEdge; rw [if_neg (by simp [hfalse])]
    have h2 : upsertEdge l lab k u q =
        l ++ [{ label := lab, key := k, source := u, props := q }] := by
      unfold upsertEdge; rw [if_neg (by simp [hfalse])]
    rw [h1, h2]
    have hany2 : (l ++ [({ label := lab, key := k, source := u, props := p } : Edge)]).any
        (isOwn lab k u) = true := by
      rw [List.any_append]
      simp [isOwn_newEdge]
    unfold upsertEdge
    rw [if_pos hany2, List.map_append]
    have hl : l.map (setPropsOwn lab k u q) = l := by
      have : l.map (setPropsOwn lab k u q) = l.map id := by
        apply List.map_congr_left
        intro e he
        have hown : isOwn lab k u e = false := by
          cases hown : isOwn lab k u e
          · rfl
          · exact absurd (List.any_eq_true.mpr ⟨e, he, hown⟩) (by simp [hfalse])
        simpa using setPropsOwn_eq_self lab k u q e hown
      rw [this, List.map_id]
    rw [hl]
    have hnew : ([({ label := lab, key := k, source := u, props := p } : Edge)]).map
        (setPropsOwn lab k u q) = [{ label := lab, key := k, source := u, props := q }] := by
      simp only [List.map_cons, List.map_nil]
      rw [setPropsOwn_own lab k u q _ (isOwn_newEdge lab k u p)]
    rw [hnew]

lemma filter_competing_upsert (l : List Edge) (lab k u : String) (p : AssertionProps) :
    (upsertEdge l lab k u p).filter (isCompeting lab k u) =
      l.filter (isCompeting lab k u) := by
  unfold upsertEdge
  split
  · apply filter_map_eq_filter
    · intro e
      exact isCompeting_setPropsOwn lab k u p e
    · intro e he
      exact setPropsOwn_eq_self lab k u p e (isOwn_false_of_competing lab k u e he)
  · rw [List.filter_append]
    have : ([({ label := lab, key := k, source := u, props := p } : Edge)]).filter
        (isCompeting lab k u) = [] := by
      simp only [List.filter_cons, List.filter_nil]
      rw [if_neg]
      rw [isCompeting_own_false lab k u _ (isOwn_newEdge lab k u p)]
      simp
    rw [this, List.append_nil]

lemma filter_competing_deact_nil (l : List Edge) (lab k u : String) :
    (deactivateEdges l lab k).filter (isCompeting lab k u) = [] := by
  unfold deactivateEdges
  rw [List.filter_eq_nil_iff]
  intro e he
  rcases List.mem_map.mp he with ⟨a, _, rfl⟩
  rw [isCompeting_deactOne]
  simp

lemma mem_sources_mergeSource (s : Store) (u : String) :
    u ∈ (mergeSource s u).sources := by
  unfold mergeSource
  split
  · assumption
  · exact List.mem_append_right _ (List.mem_singleton.mpr rfl)

lemma mergeSource_eq_of_mem (s : Store) (u : String) (h : u ∈ s.sources) :
    mergeSource s u = s := by
  unfold mergeSource
  rw [if_pos h]

lemma any_entNode_mergeEntity (s : Store) (lab kf k : String) :
    (mergeEntity s lab kf k).entities.any (isEntNode lab kf k) = true := by
  unfold mergeEntity
  split
  · assumption
  · rw [List.any_append]
    have : isEntNode lab kf k
        { label := lab, key_field := kf, key := k,
          props := [(kf, some (PropValue.str k))] } = true := by
      unfold isEntNode
      simp
    simp [this]

lemma mergeEntity_eq_of_any (s : Store) (lab kf k : String)
    (h : s.entities.any (isEntNode lab kf k) = true) :
    mergeEntity s lab kf k = s := by
  unfold mergeEntity
  rw [if_pos h]

lemma isEntNode_setPropsNode (lab' kf' k' lab kf k : String) (np : NodeProps)
    (n : Entity) :
    isEntNode lab' kf' k' (setPropsNode lab kf k np n) = isEntNode lab' kf' k' n := by
  unfold setPropsNode
  split <;> rfl

lemma any_entNode_setEntityProps (l : List Entity) (lab' kf' k' lab kf k : String)
    (np : NodeProps) :
    (setEntityProps l lab kf k np).any (isEntNode lab' kf' k') =
      l.any (isEntNode lab' kf' k') := by
  unfold setEntityProps
  rw [List.any_map]
  apply any_pointwise
  intro n
  simp only [Function.comp]
  rw [isEntNode_setPropsNode]

lemma setEntityProps_setEntityProps (l : List Entity) (lab kf k : String)
    (np np' : NodeProps) :
    setEntityProps (setEntityProps l lab kf k np) lab kf k np' =
      setEntityProps l lab kf k np' := by
  unfold setEntityProps
  rw [List.map_map]
  apply List.map_congr_left
  intro n _
  simp only [Function.comp]
  unfold setPropsNode
  by_cases h : isEntNode lab kf k n = true
  · rw [if_pos h, if_pos (by rw [show isEntNode lab kf k { n with props := np } =
      isEntNode lab kf k n from rfl]; exact h), if_pos h]
  · rw [if_neg h, if_neg h]

lemma upsert_deact_of_inactive (l : List Edge) (lab k u : String)
    (p : AssertionProps)
    (h : ∀ e ∈ l, isOwn lab k u e = false → isActiveEnt lab k e = false) :
    upsertEdge (deactivateEdges l lab k) lab k u p = upsertEdge l lab k u p := by
  by_cases hany : l.any (isOwn lab k u) = true
  · have hany' : (deactivateEdges l lab k).any (isOwn lab k u) = true := by
      rw [any_own_deact]; exact hany
    unfold upsertEdge
    rw [if_pos hany', if_pos hany]
    unfold deactivateEdges
    rw [List.map_map]
    apply List.map_congr_left
    intro e he
    simp only [Function.comp]
    by_cases hown : isOwn lab k u e = true
    · rw [setPropsOwn_own lab k u p _ (by rw [isOwn_deactOne]; exact hown),
        setPropsOwn_own lab k u p e hown]
      exact edge_props_override _ _ p (deactOne_label lab k e) (deactOne_key lab k e)
        (deactOne_source lab k e)
    · have hinact : isActiveEnt lab k e = false :=
        h e he (by simpa using hown)
      rw [deactOne_eq_self lab k e hinact]
  · have hfalse : l.any (isOwn lab k u) = false := by simpa using hany
    have hdl : deactivateEdges l lab k = l := by
      unfold deactivateEdges
      have : l.map (deactOne lab k) = l.map id := by
        apply List.map_congr_left
        intro e he
        have hown : isOwn lab k u e = false := by
          cases hown : isOwn lab k u e
          · rfl
          · exact absurd (List.any_eq_true.mpr ⟨e, he, hown⟩) (by simp [hfalse])
        simpa using deactOne_eq_self lab k e (h e he hown)
      rw [this, List.map_id]
    rw [hdl]

lemma win_result_inactive (l : List Edge) (lab k u : String) (p : AssertionProps) :
    ∀ e ∈ upsertEdge (deactivateEdges l lab k) lab k u p,
      isOwn lab k u e = false → isActiveEnt lab k e = false := by
  intro e he hown
  unfold upsertEdge at he
  split at he
  · rcases List.mem_map.mp he with ⟨d, hd, rfl⟩
    have hownd : isOwn lab k u d = false := by
      rw [isOwn_setPropsOwn] at hown
      exact hown
    rw [setPropsOwn_eq_self lab k u p d hownd] at hown ⊢
    rcases List.mem_map.mp hd with ⟨a, _, rfl⟩
    exact isActiveEnt_deactOne_self lab k a
  · rcases List.mem_append.mp he with hd | hnew
    · rcases List.mem_map.mp hd with ⟨a, _, rfl⟩
      exact isActiveEnt_deactOne_self lab k a
    · rw [List.mem_singleton] at hnew
      subst hnew
      exact absurd (isOwn_newEdge lab k u p) (by simp [hown])

lemma corroborate_lost_eq (s : Store) (label kf key : String) (np : NodeProps)
    (rp : EvidenceProps) (meta : Provenance)
    (hw : corroborateWon s label key meta = false) :
    corroborate s label kf key np rp meta =
      (false,
        { mergeEntity (mergeSource s meta.url) label kf key with
          edges := upsertEdge (mergeEntity (mergeSource s meta.url) label kf key).edges
            label key meta.url
            { evidence := rp, retrieved_at := meta.retrieved_at,
              trust_score := meta.trust_score, is_active := false } }) := by
  unfold corroborate
  rw [if_neg (by simp [hw])]

lemma corroborate_won_eq (s : Store) (label kf key : String) (np : NodeProps)
    (rp : EvidenceProps) (meta : Provenance)
    (hw : corroborateWon s label key meta = true) :
    corroborate s label kf key np rp meta =
      (true,
        { mergeEntity (mergeSource s meta.url) label kf key with
          entities := setEntityProps
            (mergeEntity (mergeSource s meta.url) label kf key).entities label kf key np,
          edges := upsertEdge
            (deactivateEdges
              (mergeEntity (mergeSource s meta.url) label kf key).edges label key)
            label key meta.url
            { evidence := rp, retrieved_at := meta.retrieved_at,
              trust_score := meta.trust_score, is_active := true } }) := by
  unfold corroborate
  rw [if_pos (by simp [hw])]

lemma lost_fixed_point (s : Store) (label kf key : String) (np : NodeProps)
    (rp : EvidenceProps) (meta : Provenance)
    (ha : meta.url ∈ s.sources)
    (hb : s.entities.any (isEntNode label kf key) = true)
    (hc : upsertEdge s.edges label key meta.url
      { evidence := rp, retrieved_at := meta.retrieved_at,
        trust_score := meta.trust_score, is_active := false } = s.edges)
    (hd : corroborateWon s label key meta = false) :
    corroborate s label kf key np rp meta = (false, s) := by
  rw [corroborate_lost_eq s label kf key np rp meta hd,
    mergeSource_eq_of_mem s meta.url ha, mergeEntity_eq_of_any s label kf key hb, hc]

lemma won_fixed_point (s : Store) (label kf key : String) (np : NodeProps)
    (rp : EvidenceProps) (meta : Provenance)
    (ha : meta.url ∈ s.sources)
    (hb : s.entities.any (isEntNode label kf key) = true)
    (hc : setEntityProps s.entities label kf key np = s.entities)
    (hd : upsertEdge (deactivateEdges s.edges label key) label key meta.url
      { evidence := rp, retrieved_at := meta.retrieved_at,
        trust_score := meta.trust_score, is_active := true } = s.edges)
    (he : corroborateWon s label key meta = true) :
    corroborate s label kf key np rp meta = (true, s) := by
  rw [corroborate_won_eq s label kf key np rp meta he,
    mergeSource_eq_of_mem s meta.url ha, mergeEntity_eq_of_any s label kf key hb,
    hc, hd]

/-- C6: running `corroborate` twice with identical provenance and
identical node/assertion properties from the same starting store state
has the same winner outcome and leaves the store in exactly the same
state (active/inactive flags, entity snapshot, edges) as running it
once. -/
theorem c6_idempotent (s : Store) (label kf key : String) (np : NodeProps)
    (rp : EvidenceProps) (meta : Provenance) :
    corroborate (corroborate s label kf key np rp meta).2 label kf key np rp meta =
      corroborate s label kf key np rp meta := by
  cases hw : corroborateWon s label key meta
  · rw [corroborate_lost_eq s label kf key np rp meta hw]
    dsimp only
    apply lost_fixed_point
    · dsimp only
      rw [mergeEntity_sources]
      exact mem_sources_mergeSource s meta.url
    · dsimp only
      exact any_entNode_mergeEntity (mergeSource s meta.url) label kf key
    · dsimp only
      rw [upsert_upsert]
    · unfold corroborateWon competingEdges at hw ⊢
      dsimp only
      rw [filter_competing_upsert]
      rw [mergeEntity_edges, mergeSource_edges]
      exact hw
  · rw [corroborate_won_eq s label kf key np rp meta hw]
    dsimp only
    apply won_fixed_point
    · dsimp only
      rw [mergeEntity_sources]
      exact mem_sources_mergeSource s meta.url
    · dsimp only
      rw [any_entNode_setEntityProps]
      exact any_entNode_mergeEntity (mergeSource s meta.url) label kf key
    · dsimp only
      rw [setEntityProps_setEntityProps]
    · dsimp only
      rw [upsert_deact_of_inactive _ label key meta.url _
        (win_result_inactive _ label key meta.url _)]
      rw [upsert_upsert]
    · unfold corroborateWon competingEdges
      dsimp only
      rw [filter_competing_upsert, filter_competing_deact_nil]
      rfl

end OGKE

